import Mathlib

/-!
Verification development for the `orderflow` order-processing pipeline.

The Python source is shallowly embedded: money amounts are modelled as
rationals (`ℚ`), Python's `round(x, 2)` as round-half-to-even at two
decimal places, fallible operations as `Except`, and the asynchronous
queue/worker machinery as explicit state passing over a `PipelineState`.
External collaborators (the catalog HTTP service, the SQL record store,
the Redis connection, `json`/`hashlib`) are modelled at their interfaces,
as the code consumes them.
-/

namespace Orderflow

/-- Round-half-to-even on rationals, modelling Python's builtin `round`
to the nearest integer (banker's rounding on exact-decimal ties). -/
def roundHalfEven (q : ℚ) : ℤ :=
  let f : ℤ := ⌊q⌋
  let frac : ℚ := q - f
  if frac < 1/2 then f
  else if 1/2 < frac then f + 1
  else if f % 2 = 0 then f else f + 1

/-- Python's `round(x, 2)`: round to two decimal places. -/
def round2 (q : ℚ) : ℚ :=
  (roundHalfEven (q * 100) : ℚ) / 100

/-- A rational representing a whole number of cents. -/
def IsCent (q : ℚ) : Prop :=
  ∃ n : ℤ, q = (n : ℚ) / 100

theorem roundHalfEven_intCast (n : ℤ) : roundHalfEven (n : ℚ) = n := by
  unfold roundHalfEven
  simp

theorem round2_isCent (q : ℚ) : IsCent (round2 q) :=
  ⟨roundHalfEven (q * 100), rfl⟩

theorem round2_of_isCent {q : ℚ} (h : IsCent q) : round2 q = q := by
  obtain ⟨n, rfl⟩ := h
  unfold round2
  rw [div_mul_cancel₀ (n : ℚ) (by norm_num : (100 : ℚ) ≠ 0), roundHalfEven_intCast]

theorem IsCent.sub {a b : ℚ} (ha : IsCent a) (hb : IsCent b) : IsCent (a - b) := by
  obtain ⟨n, rfl⟩ := ha
  obtain ⟨m, rfl⟩ := hb
  exact ⟨n - m, by push_cast; ring⟩

theorem isCent_zero : IsCent 0 :=
  ⟨0, by norm_num⟩

/-! ## Data model (`app/schemas/order.py`) -/

/-- Model of `datetime`: a calendar timestamp (UTC).  Only the fields that
feed `isoformat()` are kept. -/
structure Datetime where
  year : ℕ
  month : ℕ
  day : ℕ
  hour : ℕ
  minute : ℕ
  second : ℕ
  deriving DecidableEq, Repr

/-- Zero-pad a numeral to two digits, as `datetime.isoformat` does. -/
def pad2 (n : ℕ) : String :=
  if n < 10 then "0" ++ toString n else toString n

/-- Model of `datetime.isoformat()` (ISO-8601). -/
def Datetime.isoformat (d : Datetime) : String :=
  toString d.year ++ "-" ++ pad2 d.month ++ "-" ++ pad2 d.day ++ "T" ++
    pad2 d.hour ++ ":" ++ pad2 d.minute ++ ":" ++ pad2 d.second

/-- `OrderProduct` after validation (`app/schemas/order.py`). -/
structure OrderProduct where
  sku : String
  quantity : ℤ
  unit_price : ℚ
  deriving DecidableEq, Repr

/-- `OrderCreate` after validation (`app/schemas/order.py`). -/
structure OrderCreate where
  id : ℤ
  customer : String
  items : List OrderProduct
  submitted_at : Datetime
  deriving DecidableEq, Repr

/-- Raw (pre-validation) product payload, as decoded from JSON. -/
structure RawProduct where
  sku : String
  quantity : ℤ
  unit_price : ℚ
  deriving DecidableEq, Repr

/-- Raw (pre-validation) order payload, as decoded from JSON. -/
structure RawOrder where
  id : ℤ
  customer : String
  items : List RawProduct
  submitted_at : Datetime
  deriving DecidableEq, Repr

/-- Validation of one `OrderProduct` (`app/schemas/order.py`): `sku` must
have length 1..50, `quantity > 0`, `unit_price > 0`; the `_price_precision`
field validator then rounds the accepted unit price to 2 decimals. -/
def validate_order_product (p : RawProduct) : Except String OrderProduct :=
  if 1 ≤ p.sku.length ∧ p.sku.length ≤ 50 then
    if 0 < p.quantity then
      if 0 < p.unit_price then .ok ⟨p.sku, p.quantity, round2 p.unit_price⟩
      else .error "unit_price"
    else .error "quantity"
  else .error "sku"

/-- Per-item validation of the `items` list, in order, stopping at the
first invalid item. -/
def validate_items : List RawProduct → Except String (List OrderProduct)
  | [] => .ok []
  | p :: rest =>
    match validate_order_product p with
    | .error e => .error e
    | .ok q => (validate_items rest).map (fun l => q :: l)

/-- Validation of an `OrderCreate` (`app/schemas/order.py`): `id > 0`,
customer name length 1..120, every item valid, and at least one item
(`_check_items`). -/
def validate_order_create (r : RawOrder) : Except String OrderCreate :=
  if 0 < r.id then
    if 1 ≤ r.customer.length ∧ r.customer.length ≤ 120 then
      match validate_items r.items with
      | .error e => .error e
      | .ok items =>
        if items.isEmpty then .error "items"
        else .ok ⟨r.id, r.customer, items, r.submitted_at⟩
    else .error "customer"
  else .error "id"

/-- Catalog attributes for one product, as returned by the external
catalog service (`api_info` in `_process_order`). -/
structure ApiInfo where
  id : Option ℤ
  title : Option String
  price : Option ℚ
  category : Option String
  description : Option String
  deriving DecidableEq, Repr

/-- `EnrichedProduct` (`app/schemas/order.py`). -/
structure EnrichedProduct where
  sku : String
  quantity : ℤ
  unit_price : ℚ
  api_id : Option ℤ
  title : Option String
  api_price : Option ℚ
  category : Option String
  description : Option String
  line_total : ℚ
  deriving DecidableEq, Repr

/-- The canonical content of `_default_hash_factory`'s digest: the four
fields serialized by `json.dumps(..., sort_keys=True)` before hashing.
`json.dumps` with sorted keys is a canonical (injective) serialization of
this record, and `hashlib.sha256(...).hexdigest()` is a deterministic
function of the serialized bytes, collision-free on the payloads in play
(the ideal-hash interface the spec relies on); their composition is
therefore modelled by the canonical payload itself: two digests are equal
exactly when the payloads are equal. -/
structure HashPayload where
  order_id : ℤ
  customer : String
  submitted_at : String
  final_total : ℚ
  deriving DecidableEq, Repr

/-- `ProcessedOrderRead` (`app/schemas/order.py`), without the
server-assigned `created_at` (irrelevant to the claims). -/
structure ProcessedOrderRead where
  order_id : ℤ
  customer : String
  submitted_at : Datetime
  total : ℚ
  discount : ℚ
  final_total : ℚ
  hash_id : HashPayload
  items : List EnrichedProduct
  deriving DecidableEq, Repr

/-! ## Order processing (`app/services/order_processor.py`) -/

/-- `OrderProcessor._default_hash_factory`: the content hash over the
canonical serialization of exactly these four fields (see `HashPayload`). -/
def default_hash_factory (order : OrderCreate) (final_total : ℚ) : HashPayload :=
  { order_id := order.id
    customer := order.customer
    submitted_at := order.submitted_at.isoformat
    final_total := final_total }

/-- The catalog data one `_process_order` call works from: the mapping
returned by `ProductProvider.get_many`, keyed by SKU (`dict.get`). -/
def ApiInfo.empty : ApiInfo :=
  { id := none, title := none, price := none, category := none, description := none }

/-- The per-item enrichment step of `OrderProcessor._process_order`
(lines 149-169): look the SKU up in the fetched data (`or {}` when
absent), round the catalog price to 2 decimals when present, prefer it
over the submitted unit price, and compute the rounded line total. -/
def enrich_product (product_data : String → Option ApiInfo) (product : OrderProduct) :
    EnrichedProduct :=
  let api_info := (product_data product.sku).getD ApiInfo.empty
  let api_price := api_info.price.map round2
  let unit_price := api_price.getD product.unit_price
  let line_total := round2 (unit_price * product.quantity)
  { sku := product.sku
    quantity := product.quantity
    unit_price := product.unit_price
    api_id := api_info.id
    title := api_info.title
    api_price := api_price
    category := api_info.category
    description := api_info.description
    line_total := line_total }

/-- `OrderProcessor._process_order` (lines 141-187): enrich every line
item, round the accumulated subtotal, apply the 10%-over-500 discount,
and build the processed record (the enrichment fetch itself is supplied
as `product_data`; its failure is handled by the job layer below). -/
def process_order (product_data : String → Option ApiInfo) (order : OrderCreate) :
    ProcessedOrderRead :=
  let enriched := order.items.map (enrich_product product_data)
  let subtotal := round2 ((enriched.map EnrichedProduct.line_total).sum)
  let discount := if 500 < subtotal then round2 (subtotal * 0.10) else 0
  let final_total := round2 (subtotal - discount)
  { order_id := order.id
    customer := order.customer
    submitted_at := order.submitted_at
    total := subtotal
    discount := discount
    final_total := final_total
    hash_id := default_hash_factory order final_total
    items := enriched }

/-! ## Queue / worker state machine (`app/services/order_processor.py`)

The asynchronous machinery is embedded as explicit state passing: the
`asyncio.Queue` is a FIFO list, the SQL record store a list of persisted
records keyed by `order_id`, and the shutdown event a boolean flag.  The
enrichment fetch (`ProductProvider.get_many`) is a parameter returning
either the catalog mapping or a failure, as the worker consumes it. -/

/-- `QueueJob` (`order_processor.py` lines 25-28). -/
structure QueueJob where
  payload : OrderCreate
  attempt : ℕ
  deriving DecidableEq, Repr

/-- The mutable state an `OrderProcessor` instance owns: the internal
FIFO queue, the persisted records (the record store), and the shutdown
event. -/
structure PipelineState where
  queue : List QueueJob
  store : List ProcessedOrderRead
  shutdown : Bool
  deriving DecidableEq, Repr

/-- `OrderProcessor._is_already_processed` (lines 227-232): does the
record store hold a record with this order id? -/
def is_already_processed (store : List ProcessedOrderRead) (order_id : ℤ) : Bool :=
  store.any (fun r => r.order_id == order_id)

/-- `OrderProcessor._persist_processed` (lines 189-225): upsert keyed by
order id — overwrite the existing record if present, else append. -/
def persist_processed (store : List ProcessedOrderRead) (rec : ProcessedOrderRead) :
    List ProcessedOrderRead :=
  if is_already_processed store rec.order_id then
    store.map (fun r => if r.order_id == rec.order_id then rec else r)
  else
    store ++ [rec]

/-- `OrderProcessor.enqueue` (lines 71-77) on an already-validated
`OrderCreate`: suppress the request if a record for the order id exists,
otherwise push a fresh job (attempt 0) onto the back of the FIFO queue;
in both cases return to the caller without processing anything. -/
def enqueue (s : PipelineState) (payload : OrderCreate) : PipelineState :=
  if is_already_processed s.store payload.id then s
  else { s with queue := s.queue ++ [{ payload := payload, attempt := 0 }] }

/-- `OrderProcessor._handle_failure` (lines 115-139): during shutdown
log and drop; with attempts remaining re-enqueue at the back with the
attempt counter incremented; otherwise log terminally and drop.  The
function returns a state, never an error: failures are not raised. -/
def handle_failure (max_retries : ℕ) (s : PipelineState) (job : QueueJob) : PipelineState :=
  if s.shutdown then s
  else if job.attempt < max_retries then
    { s with queue := s.queue ++ [{ payload := job.payload, attempt := job.attempt + 1 }] }
  else s

/-- `OrderProcessor._process_job` (lines 99-113): re-check dedup, then
enrich and persist; any failure of the enrichment fetch is routed to
`handle_failure`. -/
def process_job (max_retries : ℕ)
    (get_many : OrderCreate → Except String (String → Option ApiInfo))
    (s : PipelineState) (job : QueueJob) : PipelineState :=
  if is_already_processed s.store job.payload.id then s
  else
    match get_many job.payload with
    | .ok product_data =>
        { s with store := persist_processed s.store (process_order product_data job.payload) }
    | .error _ => handle_failure max_retries s job

/-- One worker serving the queue to exhaustion (`_worker_loop` with a
single worker): pop the head job, process it, repeat, with `fuel` bounding
the number of pops.  Returns the final state and the number of jobs
processed. -/
def drain (max_retries : ℕ)
    (get_many : OrderCreate → Except String (String → Option ApiInfo)) :
    ℕ → PipelineState → PipelineState × ℕ
  | 0, s => (s, 0)
  | fuel + 1, s =>
    match s.queue with
    | [] => (s, 0)
    | job :: rest =>
      let s1 := process_job max_retries get_many { s with queue := rest } job
      let r := drain max_retries get_many fuel s1
      (r.1, r.2 + 1)

/-! ## Product provider (`app/services/product_provider.py`) -/

/-- The trailing digit run of a SKU, as matched by the regular
expression anchored at the end of the string in `_extract_product_id`. -/
def trailing_digits (sku : String) : List Char :=
  (sku.data.reverse.takeWhile Char.isDigit).reverse

/-- Numeric value of a digit string, as `int(...)` computes it. -/
def digits_to_nat (ds : List Char) : ℕ :=
  ds.foldl (fun acc c => 10 * acc + (c.toNat - 48)) 0

/-- `FakeStoreProductProvider._extract_product_id` (lines 52-59): take
the trailing digits of the SKU as the remote product id; a SKU with no
trailing digits raises `ProductLookupError` naming the SKU. -/
def extract_product_id (sku : String) : Except String ℕ :=
  if trailing_digits sku = [] then .error sku
  else .ok (digits_to_nat (trailing_digits sku))

/-- The dict comprehension in `get_many` line 35: map every distinct SKU
to its product id, stopping at the first SKU whose extraction fails —
this runs before the HTTP client is even opened. -/
def map_product_ids : List String → Except String (List (String × ℕ))
  | [] => .ok []
  | sku :: rest =>
    match extract_product_id sku with
    | .error e => .error e
    | .ok pid => (map_product_ids rest).map (fun l => (sku, pid) :: l)

/-- Awaiting the fetch tasks (`get_many` lines 44-50): the first task
that failed makes the whole call raise `ProductLookupError` naming that
task's SKU; otherwise collect the full mapping. -/
def await_all : List (String × Except Unit ApiInfo) → Except String (List (String × ApiInfo))
  | [] => .ok []
  | (sku, r) :: rest =>
    match r with
    | .error _ => .error sku
    | .ok v => (await_all rest).map (fun l => (sku, v) :: l)

/-- Result of one `get_many` call: the returned mapping or the raised
`ProductLookupError` (carrying the offending SKU), plus the number of
outbound HTTP requests that were issued. -/
structure GetManyResult where
  result : Except String (List (String × ApiInfo))
  requests : ℕ
  deriving Repr

/-- `FakeStoreProductProvider.get_many` (lines 34-50): deduplicate the
SKUs, map each to a product id (failing locally before any request),
then create one fetch task per distinct SKU — all tasks are created
before any is awaited, so each issues its request — and await them. -/
def get_many (fetch : ℕ → Except Unit ApiInfo) (skus : List String) : GetManyResult :=
  let unique := skus.dedup
  match map_product_ids unique with
  | .error sku => { result := .error sku, requests := 0 }
  | .ok pairs =>
    let tasks := pairs.map (fun p => (p.1, fetch p.2))
    { result := await_all tasks, requests := pairs.length }

/-! ## HTTP client retry loop (`app/utils/http_client.py`) -/

/-- `RETRY_STATUSES` (line 9). -/
def RETRY_STATUSES : List ℕ := [429, 500, 502, 503, 504]

/-- What one transport attempt inside `AsyncHTTP.request` produces:
either an HTTP response with a status code, or a transport/timeout
error (`httpx.RequestError` / `asyncio.TimeoutError`). -/
inductive AttemptOutcome where
  | response (status : ℕ)
  | transport_error
  deriving DecidableEq, Repr

/-- How `AsyncHTTP.request` ends when it raises. -/
inductive RequestError where
  | status_error (status : ℕ)
  | transport_error
  deriving DecidableEq, Repr

/-- One `AsyncHTTP.request` run: the outcome (success gives the response
status), the number of transport attempts made, and the sequence of
backoff sleeps taken between attempts. -/
structure RequestTrace where
  result : Except RequestError ℕ
  attempts : ℕ
  sleeps : List ℚ
  deriving Repr

/-- The retry loop of `AsyncHTTP.request` (lines 129-142) with
`raise_on_4xx_5xx = True` (the default, used by the provider), started
at iteration `attempt`: a 4xx/5xx status raises `HTTPStatusError`,
retried (after sleeping `backoff * 2 ^ attempt`) only while attempts
remain and the status is in `RETRY_STATUSES`; a transport/timeout error
is retried while attempts remain; anything else returns or raises
immediately. -/
def request_from (retries : ℕ) (backoff : ℚ) (outcomes : ℕ → AttemptOutcome)
    (attempt : ℕ) : RequestTrace :=
  match outcomes attempt with
  | .response status =>
    if 400 ≤ status ∧ status ≤ 599 then
      if h : attempt < retries ∧ status ∈ RETRY_STATUSES then
        let r := request_from retries backoff outcomes (attempt + 1)
        { result := r.result, attempts := r.attempts + 1,
          sleeps := backoff * 2 ^ attempt :: r.sleeps }
      else { result := .error (.status_error status), attempts := 1, sleeps := [] }
    else { result := .ok status, attempts := 1, sleeps := [] }
  | .transport_error =>
    if h : attempt < retries then
      let r := request_from retries backoff outcomes (attempt + 1)
      { result := r.result, attempts := r.attempts + 1,
        sleeps := backoff * 2 ^ attempt :: r.sleeps }
    else { result := .error .transport_error, attempts := 1, sleeps := [] }
termination_by retries - attempt
decreasing_by
  · omega
  · omega

/-- `AsyncHTTP.request`: the loop starts at attempt 0. -/
def request (retries : ℕ) (backoff : ℚ) (outcomes : ℕ → AttemptOutcome) : RequestTrace :=
  request_from retries backoff outcomes 0

/-! ## Redis consumer poll loop (`app/services/redis_consumer.py`) -/

/-- What one `blpop` poll in `RedisOrderConsumer._run` can produce: a
connection error, a timeout (`None`), or a popped payload.  The payload
carries the result of `json.loads`: `none` models an undecodable body,
`some raw` a decoded JSON object to be validated. -/
inductive PollEvent where
  | conn_error
  | timeout
  | payload (raw : Option RawOrder)
  deriving DecidableEq, Repr

/-- Observable state of the consumer loop: the orders handed to
`OrderProcessor.enqueue`, and counters of backoff sleeps, discarded
payloads, and loop iterations that reached the poll. -/
structure ConsumerState where
  handed : List OrderCreate
  backoffs : ℕ
  discarded : ℕ
  polls : ℕ
  deriving DecidableEq, Repr

/-- One iteration body of `RedisOrderConsumer._run` (lines 52-74): a
connection error is logged, sleeps one second and continues; an empty
poll continues; a payload that fails decoding or validation is logged
and discarded; a valid payload is handed to the processor's `enqueue`. -/
def consumer_step (s : ConsumerState) (ev : PollEvent) : ConsumerState :=
  match ev with
  | .conn_error => { s with backoffs := s.backoffs + 1, polls := s.polls + 1 }
  | .timeout => { s with polls := s.polls + 1 }
  | .payload none => { s with discarded := s.discarded + 1, polls := s.polls + 1 }
  | .payload (some raw) =>
    match validate_order_create raw with
    | .error _ => { s with discarded := s.discarded + 1, polls := s.polls + 1 }
    | .ok order => { s with handed := s.handed ++ [order], polls := s.polls + 1 }

/-- The `while not self._stop_event.is_set()` loop of `_run`, driven by a
finite script: each entry pairs the stop flag observed at the top of the
iteration with the poll outcome of that iteration.  The loop returns
(exits) only when the stop flag is observed set or the script ends. -/
def consumer_run : List (Bool × PollEvent) → ConsumerState → ConsumerState
  | [], s => s
  | (stopped, ev) :: rest, s =>
    if stopped then s else consumer_run rest (consumer_step s ev)

/-! ## Concrete data for witnesses (the spec's §8 scenario) -/

def sampleDatetime : Datetime :=
  { year := 2024, month := 1, day := 2, hour := 3, minute := 4, second := 5 }

def acmeItems : List OrderProduct :=
  [{ sku := "P001", quantity := 3, unit_price := 10 },
   { sku := "P002", quantity := 5, unit_price := 20 }]

def acmeOrder : OrderCreate :=
  { id := 42, customer := "ACME Corp", items := acmeItems, submitted_at := sampleDatetime }

/-- The same order with its line items reordered. -/
def acmeOrderReordered : OrderCreate :=
  { acmeOrder with items := acmeItems.reverse }

/-- Catalog data of the spec's concrete scenario: price 120 for `P001`,
55.5 for `P002`. -/
def acmeData : String → Option ApiInfo := fun s =>
  if s = "P001" then
    some { id := some 1, title := some "Item 1", price := some 120,
           category := none, description := none }
  else if s = "P002" then
    some { id := some 2, title := some "Item 2", price := some 55.5,
           category := none, description := none }
  else none

/-- A record already persisted for order id 42, used to exercise
duplicate suppression. -/
def sampleRecord : ProcessedOrderRead :=
  { order_id := 42, customer := "ACME Corp", submitted_at := sampleDatetime,
    total := 637.5, discount := 63.75, final_total := 573.75,
    hash_id := { order_id := 42, customer := "ACME Corp",
                 submitted_at := sampleDatetime.isoformat, final_total := 573.75 },
    items := [] }

/-! ## Helper lemmas -/

theorem round2_sub_self {a b : ℚ} (ha : IsCent a) (hb : IsCent b) :
    round2 (a - b) = a - b :=
  round2_of_isCent (ha.sub hb)

/-! ## Claims -/

/-- C1: for every order request whose order id already has a record in
the store, `enqueue` returns the state unchanged (a no-op, nothing is
added to the queue); for an id with no record it pushes exactly one new
job with attempt counter 0 onto the back of the FIFO queue, touching
nothing else, and returns without processing anything. -/
theorem enqueue_duplicate_noop_or_push (s : PipelineState) (payload : OrderCreate) :
    (is_already_processed s.store payload.id = true → enqueue s payload = s) ∧
    (is_already_processed s.store payload.id = false →
      enqueue s payload =
        { s with queue := s.queue ++ [{ payload := payload, attempt := 0 }] }) := by
  unfold enqueue
  constructor <;> intro h <;> simp [h]

/-- Witness for C1: with a record for order id 42 present, enqueuing the
ACME order is a no-op; with an empty store, it pushes exactly the fresh
job. -/
theorem enqueue_duplicate_noop_or_push_witness :
    enqueue { queue := [], store := [sampleRecord], shutdown := false } acmeOrder =
      { queue := [], store := [sampleRecord], shutdown := false } ∧
    enqueue { queue := [], store := [], shutdown := false } acmeOrder =
      { queue := [] ++ [{ payload := acmeOrder, attempt := 0 }], store := [],
        shutdown := false } := by
  constructor
  · exact (enqueue_duplicate_noop_or_push _ acmeOrder).1
      (by simp [is_already_processed, sampleRecord, acmeOrder])
  · exact (enqueue_duplicate_noop_or_push _ acmeOrder).2
      (by simp [is_already_processed])

/-- C2: every record produced by `_process_order` satisfies the pricing
formulas: `total` is the 2-decimal rounding of the sum of the per-line
totals, `discount` is `round2 (total * 0.10)` exactly when
`total > 500` and `0` otherwise, and `final_total = total - discount`
(the code's extra rounding of the difference is the identity, since both
operands are whole numbers of cents). -/
theorem process_order_pricing (product_data : String → Option ApiInfo) (order : OrderCreate) :
    (process_order product_data order).total =
      round2 (((process_order product_data order).items.map EnrichedProduct.line_total).sum) ∧
    (process_order product_data order).discount =
      (if 500 < (process_order product_data order).total then
        round2 ((process_order product_data order).total * 0.10) else 0) ∧
    (process_order product_data order).final_total =
      (process_order product_data order).total - (process_order product_data order).discount := by
  refine ⟨rfl, rfl, ?_⟩
  show round2 _ = _
  apply round2_sub_self (round2_isCent _)
  split
  · exact round2_isCent _
  · exact isCent_zero

/-- C4: the content hash is a function of exactly the order id, the
customer, the ISO-8601 submitted-at and the final total: two orders
agreeing on those fields hash identically whatever their line items, and
changing the final total changes the hash. -/
theorem hash_depends_on_exactly_four_fields (o1 o2 : OrderCreate) (ft1 ft2 : ℚ) :
    (o1.id = o2.id → o1.customer = o2.customer → o1.submitted_at = o2.submitted_at →
      default_hash_factory o1 ft1 = default_hash_factory o2 ft1) ∧
    (ft1 ≠ ft2 → default_hash_factory o1 ft1 ≠ default_hash_factory o1 ft2) := by
  constructor
  · intro h1 h2 h3
    unfold default_hash_factory
    rw [h1, h2, h3]
  · intro hne heq
    exact hne (congrArg HashPayload.final_total heq)

/-- Witness for C4: the ACME order and its item-reordered variant hash
identically, and changing the final total from 573.75 to 573.76 changes
the hash. -/
theorem hash_depends_on_exactly_four_fields_witness :
    default_hash_factory acmeOrder 573.75 = default_hash_factory acmeOrderReordered 573.75 ∧
    default_hash_factory acmeOrder 573.75 ≠ default_hash_factory acmeOrder 573.76 :=
  ⟨(hash_depends_on_exactly_four_fields acmeOrder acmeOrderReordered 573.75 573.76).1
      rfl rfl rfl,
   (hash_depends_on_exactly_four_fields acmeOrder acmeOrderReordered 573.75 573.76).2
      (by norm_num)⟩

/-- C5: the enriched line items of a processed order correspond 1-1 and
in order to the submitted items; each keeps the original sku, quantity
and unit price, stores the catalog attributes (the catalog price rounded
to 2 decimals), and its line total is the rounded product of quantity
with the stored catalog price when the enrichment data provides one,
else with the submitted unit price. -/
theorem enriched_line_items_spec (product_data : String → Option ApiInfo) (order : OrderCreate) :
    List.Forall₂ (fun (item : OrderProduct) (e : EnrichedProduct) =>
        e.sku = item.sku ∧ e.quantity = item.quantity ∧ e.unit_price = item.unit_price ∧
        e.api_id = ((product_data item.sku).getD ApiInfo.empty).id ∧
        e.api_price = ((product_data item.sku).getD ApiInfo.empty).price.map round2 ∧
        e.line_total = round2 ((e.api_price.getD item.unit_price) * item.quantity))
      order.items (process_order product_data order).items := by
  have hitems : (process_order product_data order).items =
      order.items.map (enrich_product product_data) := rfl
  rw [hitems]
  induction order.items with
  | nil => exact .nil
  | cons a t ih => exact .cons ⟨rfl, rfl, rfl, rfl, rfl, rfl⟩ ih

/-- C9: the spec's concrete scenario — order 42 for ACME Corp with
items P001 (qty 3, price 10) and P002 (qty 5, price 20) and catalog
prices 120 and 55.5 — yields line totals 360 and 277.5, subtotal 637.5,
discount 63.75 and final total 573.75. -/
theorem acme_scenario :
    ((process_order acmeData acmeOrder).items.map EnrichedProduct.line_total = [360, 277.5]) ∧
    (process_order acmeData acmeOrder).total = 637.5 ∧
    (process_order acmeData acmeOrder).discount = 63.75 ∧
    (process_order acmeData acmeOrder).final_total = 573.75 := by
  simp [process_order, enrich_product, acmeData, acmeOrder, acmeItems, ApiInfo.empty]
  norm_num [round2, roundHalfEven]

/-- C10: validation accepts an item only after silently replacing its
unit price by its 2-decimal rounding, which can differ from the
submitted value (e.g. 10.008 becomes 10.01). -/
theorem validation_rounds_unit_price :
    (∀ p q, validate_order_product p = .ok q → q.unit_price = round2 p.unit_price) ∧
    (∃ p q, validate_order_product p = .ok q ∧ q.unit_price = round2 p.unit_price ∧
      q.unit_price ≠ p.unit_price) := by
  constructor
  · intro p q h
    unfold validate_order_product at h
    split_ifs at h
    all_goals first
      | exact Except.noConfusion h
      | (injection h with h2; subst h2; rfl)
  · refine ⟨{ sku := "A", quantity := 1, unit_price := 1251/125 },
      { sku := "A", quantity := 1, unit_price := round2 (1251/125) }, ?_, rfl, ?_⟩
    · unfold validate_order_product
      rw [if_pos (by decide), if_pos (by decide), if_pos (by norm_num)]
    · norm_num [round2, roundHalfEven]

/-- Witness for C10: a concrete accepted item whose stored unit price is
the rounding of the submitted one. -/
theorem validation_rounds_unit_price_witness :
    validate_order_product { sku := "A", quantity := 1, unit_price := 1251/125 } =
      Except.ok { sku := "A", quantity := 1, unit_price := round2 (1251/125) } ∧
    ({ sku := "A", quantity := 1, unit_price := round2 (1251/125) } : OrderProduct).unit_price =
      round2 ({ sku := "A", quantity := 1, unit_price := 1251/125 } : RawProduct).unit_price := by
  have hv : validate_order_product { sku := "A", quantity := 1, unit_price := 1251/125 } =
      Except.ok { sku := "A", quantity := 1, unit_price := round2 (1251/125) } := by
    unfold validate_order_product
    rw [if_pos (by decide), if_pos (by decide), if_pos (by norm_num)]
  exact ⟨hv, validation_rounds_unit_price.1 _ _ hv⟩

/-! ## C3 supporting lemmas -/

/-- A pipeline state, not shut down, whose queue holds one job for `p`
at attempt `a`. -/
def oneJobState (p : OrderCreate) (a : ℕ) (store : List ProcessedOrderRead) : PipelineState :=
  { queue := [{ payload := p, attempt := a }], store := store, shutdown := false }

/-- A pipeline state, not shut down, with an empty queue. -/
def doneState (store : List ProcessedOrderRead) : PipelineState :=
  { queue := [], store := store, shutdown := false }

theorem drain_empty_queue (mr : ℕ) (gm : OrderCreate → Except String (String → Option ApiInfo))
    (fuel : ℕ) (store : List ProcessedOrderRead) :
    drain mr gm fuel (doneState store) = (doneState store, 0) := by
  cases fuel <;> rfl

theorem drain_always_fail (mr : ℕ) (gm : OrderCreate → Except String (String → Option ApiInfo))
    (err : String) (hfail : ∀ o, gm o = .error err) (store : List ProcessedOrderRead)
    (p : OrderCreate) (hp : is_already_processed store p.id = false) :
    ∀ fuel a, a ≤ mr → mr + 1 - a ≤ fuel →
      drain mr gm fuel (oneJobState p a store) = (doneState store, mr + 1 - a) := by
  intro fuel
  induction fuel with
  | zero =>
    intro a ha hf
    exact absurd hf (by omega)
  | succ n ih =>
    intro a ha hf
    have hone : drain mr gm (n + 1) (oneJobState p a store) =
        ((drain mr gm n (process_job mr gm (doneState store) { payload := p, attempt := a })).1,
          (drain mr gm n (process_job mr gm (doneState store) { payload := p, attempt := a })).2 + 1) := rfl
    by_cases hlt : a < mr
    · have hstep : process_job mr gm (doneState store) { payload := p, attempt := a } =
          oneJobState p (a + 1) store := by
        simp [process_job, hp, hfail, handle_failure, hlt, doneState, oneJobState]
      rw [hone, hstep, ih (a + 1) (by omega) (by omega)]
      exact Prod.ext rfl (by show mr + 1 - (a + 1) + 1 = mr + 1 - a; omega)
    · have hstep : process_job mr gm (doneState store) { payload := p, attempt := a } =
          doneState store := by
        simp [process_job, hp, hfail, handle_failure, hlt, doneState]
      rw [hone, hstep, drain_empty_queue]
      exact Prod.ext rfl (by show 0 + 1 = mr + 1 - a; omega)

/-- C3: `_handle_failure` drops the job during shutdown (queue and store
untouched, never re-enqueued); with attempts below the maximum it
re-appends the job at the back of the queue with the counter
incremented; with attempts exhausted it drops the job.  In all cases it
returns a state — the failure is never raised to the enqueue caller.
Consequently, draining a queue holding one job whose enrichment always
fails processes that job exactly `max_retries + 1` times and never
stores a record for its order id. -/
theorem failure_retry_drop_policy (mr : ℕ) (s : PipelineState) (job : QueueJob)
    (gm : OrderCreate → Except String (String → Option ApiInfo)) (err : String)
    (store : List ProcessedOrderRead) (p : OrderCreate) (fuel : ℕ) :
    (s.shutdown = true → handle_failure mr s job = s) ∧
    (s.shutdown = false → job.attempt < mr →
      handle_failure mr s job =
        { s with queue := s.queue ++ [{ payload := job.payload, attempt := job.attempt + 1 }] }) ∧
    (s.shutdown = false → ¬ job.attempt < mr → handle_failure mr s job = s) ∧
    ((∀ o, gm o = .error err) → is_already_processed store p.id = false → mr + 1 ≤ fuel →
      drain mr gm fuel (oneJobState p 0 store) = (doneState store, mr + 1)) := by
  refine ⟨?_, ?_, ?_, ?_⟩
  · intro hsd
    simp [handle_failure, hsd]
  · intro hsd hlt
    simp [handle_failure, hsd, hlt]
  · intro hsd hge
    simp [handle_failure, hsd, hge]
  · intro hfail hp hfuel
    have h := drain_always_fail mr gm err hfail store p hp fuel 0 (by omega) (by omega)
    simpa using h

/-- Witness for C3 (max retries 2): dropping during shutdown, re-append
with attempt 1, terminal drop at attempt 2, and a drain of one
always-failing job processing it exactly 3 times while the store stays
empty. -/
theorem failure_retry_drop_policy_witness :
    handle_failure 2 { queue := [], store := [], shutdown := true }
      { payload := acmeOrder, attempt := 0 } =
      { queue := [], store := [], shutdown := true } ∧
    handle_failure 2 { queue := [], store := [], shutdown := false }
      { payload := acmeOrder, attempt := 0 } =
      { queue := [] ++ [{ payload := acmeOrder, attempt := 1 }], store := [],
        shutdown := false } ∧
    handle_failure 2 { queue := [], store := [], shutdown := false }
      { payload := acmeOrder, attempt := 2 } =
      { queue := [], store := [], shutdown := false } ∧
    drain 2 (fun _ => Except.error "boom") 3 (oneJobState acmeOrder 0 []) = (doneState [], 3) := by
  refine ⟨?_, ?_, ?_, ?_⟩
  · exact (failure_retry_drop_policy 2 _ _ (fun _ => Except.error "boom") "boom" [] acmeOrder 3).1
      rfl
  · have h := (failure_retry_drop_policy 2 { queue := [], store := [], shutdown := false }
      { payload := acmeOrder, attempt := 0 } (fun _ => Except.error "boom") "boom" []
      acmeOrder 3).2.1 rfl (by show (0:ℕ) < 2; omega)
    simpa using h
  · exact (failure_retry_drop_policy 2 { queue := [], store := [], shutdown := false }
      { payload := acmeOrder, attempt := 2 } (fun _ => Except.error "boom") "boom" []
      acmeOrder 3).2.2.1 rfl (by show ¬ (2:ℕ) < 2; omega)
  · exact (failure_retry_drop_policy 2 { queue := [], store := [], shutdown := false }
      { payload := acmeOrder, attempt := 0 } (fun _ => Except.error "boom") "boom" []
      acmeOrder 3).2.2.2 (fun _ => rfl) rfl (by omega)

/-! ## C8 supporting lemmas -/

theorem consumer_step_polls (s : ConsumerState) (ev : PollEvent) :
    (consumer_step s ev).polls = s.polls + 1 := by
  cases ev with
  | conn_error => rfl
  | timeout => rfl
  | payload raw =>
    cases raw with
    | none => rfl
    | some r =>
      cases h : validate_order_create r with
      | error e => simp [consumer_step, h]
      | ok o => simp [consumer_step, h]

theorem consumer_run_no_stop_polls (events : List PollEvent) :
    ∀ s : ConsumerState,
      (consumer_run (events.map (fun ev => (false, ev))) s).polls = s.polls + events.length := by
  induction events with
  | nil => intro s; rfl
  | cons ev rest ih =>
    intro s
    show (consumer_run (rest.map (fun ev => (false, ev))) (consumer_step s ev)).polls = _
    rw [ih (consumer_step s ev), consumer_step_polls]
    simp [List.length_cons]
    omega

/-- C8: in the consumer poll loop, a payload that fails JSON decoding or
`OrderCreate` validation is discarded — nothing is handed to the
pipeline — and the loop continues with the remaining script; a valid
payload is handed to the pipeline's enqueue and the loop continues; a
connection error increments the backoff counter and the loop polls
again; and with no stop signal the loop never terminates early — it
polls once per scripted event. -/
theorem consumer_loop_behavior (rest : List (Bool × PollEvent)) (s : ConsumerState)
    (raw : RawOrder) (order : OrderCreate) (e : String) (events : List PollEvent) :
    (consumer_run ((false, .payload none) :: rest) s =
      consumer_run rest { s with discarded := s.discarded + 1, polls := s.polls + 1 }) ∧
    (validate_order_create raw = .error e →
      consumer_run ((false, .payload (some raw)) :: rest) s =
        consumer_run rest { s with discarded := s.discarded + 1, polls := s.polls + 1 }) ∧
    (validate_order_create raw = .ok order →
      consumer_run ((false, .payload (some raw)) :: rest) s =
        consumer_run rest { s with handed := s.handed ++ [order], polls := s.polls + 1 }) ∧
    (consumer_run ((false, .conn_error) :: rest) s =
      consumer_run rest { s with backoffs := s.backoffs + 1, polls := s.polls + 1 }) ∧
    ((consumer_run (events.map (fun ev => (false, ev))) s).polls = s.polls + events.length) := by
  refine ⟨rfl, ?_, ?_, rfl, consumer_run_no_stop_polls events s⟩
  · intro h
    show consumer_run rest (consumer_step s (.payload (some raw))) = _
    simp [consumer_step, h]
  · intro h
    show consumer_run rest (consumer_step s (.payload (some raw))) = _
    simp [consumer_step, h]

/-- A syntactically valid raw payload for the ACME order. -/
def acmeRaw : RawOrder :=
  { id := 42, customer := "ACME Corp",
    items := [{ sku := "P001", quantity := 3, unit_price := 10 },
              { sku := "P002", quantity := 5, unit_price := 20 }],
    submitted_at := sampleDatetime }

/-- A raw payload that fails validation (non-positive order id). -/
def badRaw : RawOrder :=
  { id := 0, customer := "X", items := [], submitted_at := sampleDatetime }

theorem validate_acmeRaw : validate_order_create acmeRaw = Except.ok acmeOrder := by
  have h1 : validate_order_product { sku := "P001", quantity := 3, unit_price := 10 } =
      Except.ok { sku := "P001", quantity := 3, unit_price := (10 : ℚ) } := by
    unfold validate_order_product
    rw [if_pos (by decide), if_pos (by decide), if_pos (by norm_num)]
    norm_num [round2, roundHalfEven]
  have h2 : validate_order_product { sku := "P002", quantity := 5, unit_price := 20 } =
      Except.ok { sku := "P002", quantity := 5, unit_price := (20 : ℚ) } := by
    unfold validate_order_product
    rw [if_pos (by decide), if_pos (by decide), if_pos (by norm_num)]
    norm_num [round2, roundHalfEven]
  have hm : validate_items acmeRaw.items = Except.ok acmeItems := by
    simp [validate_items, acmeRaw, h1, h2, acmeItems, Except.map]
  unfold validate_order_create
  rw [if_pos (by decide), if_pos (by decide), hm]
  simp [acmeItems, acmeOrder, acmeRaw]

theorem validate_badRaw : validate_order_create badRaw = Except.error "id" := by
  unfold validate_order_create
  rw [if_neg (by decide)]

/-- Witness for C8: a malformed payload and a failing-validation payload
are discarded, the valid ACME payload is handed over, a connection error
backs off, and a three-event stop-free script is polled three times. -/
theorem consumer_loop_behavior_witness :
    (consumer_run [(false, .payload none)] { handed := [], backoffs := 0, discarded := 0, polls := 0 } =
      { handed := [], backoffs := 0, discarded := 0 + 1, polls := 0 + 1 }) ∧
    (consumer_run [(false, .payload (some badRaw))] { handed := [], backoffs := 0, discarded := 0, polls := 0 } =
      { handed := [], backoffs := 0, discarded := 0 + 1, polls := 0 + 1 }) ∧
    (consumer_run [(false, .payload (some acmeRaw))] { handed := [], backoffs := 0, discarded := 0, polls := 0 } =
      { handed := [] ++ [acmeOrder], backoffs := 0, discarded := 0, polls := 0 + 1 }) ∧
    (consumer_run [(false, .conn_error)] { handed := [], backoffs := 0, discarded := 0, polls := 0 } =
      { handed := [], backoffs := 0 + 1, discarded := 0, polls := 0 + 1 }) ∧
    ((consumer_run ([PollEvent.conn_error, .timeout, .payload none].map (fun ev => (false, ev)))
        { handed := [], backoffs := 0, discarded := 0, polls := 0 }).polls = 0 + 3) := by
  refine ⟨?_, ?_, ?_, ?_, ?_⟩
  · exact (consumer_loop_behavior [] _ badRaw acmeOrder "id" []).1
  · exact (consumer_loop_behavior [] _ badRaw acmeOrder "id" []).2.1 validate_badRaw
  · exact (consumer_loop_behavior [] _ acmeRaw acmeOrder "id" []).2.2.1 validate_acmeRaw
  · exact (consumer_loop_behavior [] _ badRaw acmeOrder "id" []).2.2.2.1
  · exact (consumer_loop_behavior [] _ badRaw acmeOrder "id"
      [PollEvent.conn_error, .timeout, .payload none]).2.2.2.2

/-! ## C6 supporting lemmas -/

theorem extract_product_id_error {sku e : String} (h : extract_product_id sku = .error e) :
    e = sku ∧ trailing_digits sku = [] := by
  unfold extract_product_id at h
  split_ifs at h with hd
  injection h with h2
  exact ⟨h2.symm, hd⟩

theorem extract_product_id_of_no_digits {sku : String} (h : trailing_digits sku = []) :
    extract_product_id sku = .error sku := by
  unfold extract_product_id
  rw [if_pos h]

theorem map_product_ids_ok_length :
    ∀ {l : List String} {pairs : List (String × ℕ)},
      map_product_ids l = .ok pairs → pairs.length = l.length := by
  intro l
  induction l with
  | nil =>
    intro pairs h
    simp only [map_product_ids] at h
    injection h with h2
    subst h2
    rfl
  | cons sku rest ih =>
    intro pairs h
    simp only [map_product_ids] at h
    cases he : extract_product_id sku with
    | error e =>
      rw [he] at h
      exact Except.noConfusion h
    | ok pid =>
      rw [he] at h
      cases hr : map_product_ids rest with
      | error e =>
        rw [hr] at h
        exact Except.noConfusion h
      | ok tail =>
        rw [hr] at h
        simp only [Except.map] at h
        injection h with h2
        subst h2
        simp [ih hr]

theorem map_product_ids_error_mem :
    ∀ {l : List String} {e : String},
      map_product_ids l = .error e → e ∈ l ∧ trailing_digits e = [] := by
  intro l
  induction l with
  | nil =>
    intro e h
    simp only [map_product_ids] at h
    exact Except.noConfusion h
  | cons sku rest ih =>
    intro e h
    simp only [map_product_ids] at h
    cases he : extract_product_id sku with
    | error e2 =>
      rw [he] at h
      injection h with h2
      subst h2
      obtain ⟨rfl, hd⟩ := extract_product_id_error he
      exact ⟨List.mem_cons_self _ _, hd⟩
    | ok pid =>
      rw [he] at h
      cases hr : map_product_ids rest with
      | error e2 =>
        rw [hr] at h
        simp only [Except.map] at h
        injection h with h2
        subst h2
        obtain ⟨hm, hd⟩ := ih hr
        exact ⟨List.mem_cons_of_mem _ hm, hd⟩
      | ok tail =>
        rw [hr] at h
        exact Except.noConfusion h

theorem map_product_ids_error_of_mem :
    ∀ {l : List String} {sku : String}, sku ∈ l → trailing_digits sku = [] →
      ∃ e, map_product_ids l = .error e := by
  intro l
  induction l with
  | nil =>
    intro sku h
    exact absurd h (List.not_mem_nil sku)
  | cons a rest ih =>
    intro sku hmem hd
    cases he : extract_product_id a with
    | error e =>
      exact ⟨e, by simp only [map_product_ids]; rw [he]⟩
    | ok pid =>
      rcases List.mem_cons.1 hmem with rfl | hmem2
      · rw [extract_product_id_of_no_digits hd] at he
        exact Except.noConfusion he
      · obtain ⟨e, hr⟩ := ih hmem2 hd
        refine ⟨e, ?_⟩
        simp only [map_product_ids]
        rw [he, hr]
        rfl

theorem map_product_ids_ok_mem :
    ∀ {l : List String} {pairs : List (String × ℕ)} {s : String} {pid : ℕ},
      map_product_ids l = .ok pairs → (s, pid) ∈ pairs →
      s ∈ l ∧ extract_product_id s = .ok pid := by
  intro l
  induction l with
  | nil =>
    intro pairs s pid h hm
    simp only [map_product_ids] at h
    injection h with h2
    subst h2
    exact absurd hm (List.not_mem_nil _)
  | cons sku rest ih =>
    intro pairs s pid h hm
    simp only [map_product_ids] at h
    cases he : extract_product_id sku with
    | error e =>
      rw [he] at h
      exact Except.noConfusion h
    | ok pid2 =>
      rw [he] at h
      cases hr : map_product_ids rest with
      | error e =>
        rw [hr] at h
        exact Except.noConfusion h
      | ok tail =>
        rw [hr] at h
        simp only [Except.map] at h
        injection h with h2
        subst h2
        rcases List.mem_cons.1 hm with heq | hm2
        · injection heq with hs hp
          subst hs
          subst hp
          exact ⟨List.mem_cons_self _ _, he⟩
        · obtain ⟨hmem, hex⟩ := ih hr hm2
          exact ⟨List.mem_cons_of_mem _ hmem, hex⟩

theorem map_product_ids_mem_ok :
    ∀ {l : List String} {pairs : List (String × ℕ)} {s : String},
      map_product_ids l = .ok pairs → s ∈ l → ∃ pid, (s, pid) ∈ pairs := by
  intro l
  induction l with
  | nil =>
    intro pairs s h hm
    exact absurd hm (List.not_mem_nil _)
  | cons sku rest ih =>
    intro pairs s h hm
    simp only [map_product_ids] at h
    cases he : extract_product_id sku with
    | error e =>
      rw [he] at h
      exact Except.noConfusion h
    | ok pid2 =>
      rw [he] at h
      cases hr : map_product_ids rest with
      | error e =>
        rw [hr] at h
        exact Except.noConfusion h
      | ok tail =>
        rw [hr] at h
        simp only [Except.map] at h
        injection h with h2
        subst h2
        rcases List.mem_cons.1 hm with rfl | hm2
        · exact ⟨pid2, List.mem_cons_self _ _⟩
        · obtain ⟨pid, hp⟩ := ih hr hm2
          exact ⟨pid, List.mem_cons_of_mem _ hp⟩

theorem await_all_error_mem :
    ∀ {tasks : List (String × Except Unit ApiInfo)} {s : String},
      await_all tasks = .error s → (s, Except.error ()) ∈ tasks := by
  intro tasks
  induction tasks with
  | nil =>
    intro s h
    simp only [await_all] at h
    exact Except.noConfusion h
  | cons t rest ih =>
    intro s h
    obtain ⟨sku, r⟩ := t
    simp only [await_all] at h
    cases r with
    | error u =>
      injection h with h2
      subst h2
      exact List.mem_cons_self _ _
    | ok v =>
      cases hr : await_all rest with
      | error e =>
        rw [hr] at h
        simp only [Except.map] at h
        injection h with h2
        subst h2
        exact List.mem_cons_of_mem _ (ih hr)
      | ok tail =>
        rw [hr] at h
        exact Except.noConfusion h

theorem await_all_error_of_mem :
    ∀ {tasks : List (String × Except Unit ApiInfo)} {s : String},
      (s, Except.error ()) ∈ tasks → ∃ e, await_all tasks = .error e := by
  intro tasks
  induction tasks with
  | nil =>
    intro s h
    exact absurd h (List.not_mem_nil _)
  | cons t rest ih =>
    intro s h
    obtain ⟨sku, r⟩ := t
    cases r with
    | error u =>
      exact ⟨sku, by simp only [await_all]⟩
    | ok v =>
      rcases List.mem_cons.1 h with heq | hm2
      · exact absurd (congrArg Prod.snd heq) (by simp)
      · obtain ⟨e, hr⟩ := ih hm2
        refine ⟨e, ?_⟩
        simp only [await_all]
        rw [hr]
        rfl

/-- C6: `get_many` issues exactly one outbound request per distinct SKU
when every SKU is mappable; a SKU with no trailing digits makes the call
fail locally, with zero outbound requests, raising an error naming such
a SKU; every error the call raises names an input SKU that either could
not be mapped or whose fetch failed (and, the result being an error, no
partial mapping is returned); and if any mappable SKU's fetch fails the
whole call fails. -/
theorem get_many_request_policy (fetch : ℕ → Except Unit ApiInfo) (skus : List String) :
    ((∀ sku ∈ skus, trailing_digits sku ≠ []) →
      (get_many fetch skus).requests = skus.dedup.length) ∧
    ((∃ sku ∈ skus, trailing_digits sku = []) →
      (get_many fetch skus).requests = 0 ∧
      ∃ s ∈ skus, trailing_digits s = [] ∧ (get_many fetch skus).result = .error s) ∧
    (∀ s, (get_many fetch skus).result = .error s →
      s ∈ skus ∧ (trailing_digits s = [] ∨
        ∃ pid, extract_product_id s = .ok pid ∧ fetch pid = .error ())) ∧
    ((∀ sku ∈ skus, trailing_digits sku ≠ []) →
      ∀ sku ∈ skus, ∀ pid, extract_product_id sku = .ok pid → fetch pid = .error () →
        ∃ s, (get_many fetch skus).result = .error s) := by
  refine ⟨?_, ?_, ?_, ?_⟩
  · intro hall
    cases hm : map_product_ids skus.dedup with
    | error e =>
      obtain ⟨hmem, hd⟩ := map_product_ids_error_mem hm
      exact absurd hd (hall e (List.mem_dedup.1 hmem))
    | ok pairs =>
      have : (get_many fetch skus).requests = pairs.length := by
        simp only [get_many]
        rw [hm]
      rw [this, map_product_ids_ok_length hm]
  · rintro ⟨sku, hmem, hd⟩
    obtain ⟨e, hm⟩ := map_product_ids_error_of_mem (List.mem_dedup.2 hmem) hd
    obtain ⟨hmem2, hd2⟩ := map_product_ids_error_mem hm
    refine ⟨?_, e, List.mem_dedup.1 hmem2, hd2, ?_⟩
    · simp only [get_many]
      rw [hm]
    · simp only [get_many]
      rw [hm]
  · intro s h
    simp only [get_many] at h
    cases hm : map_product_ids skus.dedup with
    | error e =>
      rw [hm] at h
      injection h with h2
      subst h2
      obtain ⟨hmem, hd⟩ := map_product_ids_error_mem hm
      exact ⟨List.mem_dedup.1 hmem, Or.inl hd⟩
    | ok pairs =>
      rw [hm] at h
      have hmem := await_all_error_mem h
      obtain ⟨p, hp, heq⟩ := List.mem_map.1 hmem
      have hs : p.1 = s := congrArg Prod.fst heq
      have hf : fetch p.2 = .error () := congrArg Prod.snd heq
      subst hs
      obtain ⟨hmem2, hex⟩ := map_product_ids_ok_mem hm (by simpa using hp)
      exact ⟨List.mem_dedup.1 hmem2, Or.inr ⟨p.2, hex, hf⟩⟩
  · intro hall sku hmem pid hex hf
    cases hm : map_product_ids skus.dedup with
    | error e =>
      obtain ⟨hmem2, hd⟩ := map_product_ids_error_mem hm
      exact absurd hd (hall e (List.mem_dedup.1 hmem2))
    | ok pairs =>
      obtain ⟨pid2, hp⟩ := map_product_ids_mem_ok hm (List.mem_dedup.2 hmem)
      obtain ⟨hmem3, hex2⟩ := map_product_ids_ok_mem hm hp
      have hpid : pid2 = pid := by
        rw [hex] at hex2
        injection hex2 with h2
        exact h2.symm
      subst hpid
      have htask : (sku, Except.error ()) ∈ pairs.map (fun p => (p.1, fetch p.2)) := by
        refine List.mem_map.2 ⟨(sku, pid2), hp, ?_⟩
        simp [hf]
      obtain ⟨e, haw⟩ := await_all_error_of_mem htask
      refine ⟨e, ?_⟩
      simp only [get_many]
      rw [hm]
      exact haw

/-- Witness for C6: ["P001", "P002", "P001"] issues two requests (one
per distinct SKU); ["ABC"] fails locally naming "ABC" with zero
requests; the error result of ["ABC"] identifies "ABC" as unmappable;
and a failing fetch for "P001" makes the whole call error. -/
theorem get_many_request_policy_witness :
    (get_many (fun _ => Except.ok ApiInfo.empty) ["P001", "P002", "P001"]).requests =
      (["P001", "P002", "P001"] : List String).dedup.length ∧
    ((get_many (fun _ => Except.ok ApiInfo.empty) ["ABC"]).requests = 0 ∧
      ∃ s ∈ (["ABC"] : List String), trailing_digits s = [] ∧
        (get_many (fun _ => Except.ok ApiInfo.empty) ["ABC"]).result = .error s) ∧
    ("ABC" ∈ (["ABC"] : List String) ∧ (trailing_digits "ABC" = [] ∨
      ∃ pid, extract_product_id "ABC" = .ok pid ∧
        (fun _ : ℕ => Except.ok (ε := Unit) ApiInfo.empty) pid = .error ())) ∧
    (∃ s, (get_many (fun _ => Except.error (α := ApiInfo) ()) ["P001"]).result = .error s) := by
  have habc : trailing_digits "ABC" = [] := by decide
  have habc2 : (get_many (fun _ => Except.ok ApiInfo.empty) ["ABC"]).result =
      Except.error "ABC" := by
    have hd : (["ABC"] : List String).dedup = ["ABC"] := by decide
    have hm : map_product_ids ["ABC"] = .error "ABC" := by
      simp only [map_product_ids]
      rw [extract_product_id_of_no_digits habc]
    simp only [get_many]
    rw [hd, hm]
  refine ⟨?_, ?_, ?_, ?_⟩
  · exact (get_many_request_policy _ _).1 (by decide)
  · exact (get_many_request_policy _ _).2.1 ⟨"ABC", by decide, habc⟩
  · exact (get_many_request_policy _ _).2.2.1 "ABC" habc2
  · exact (get_many_request_policy _ _).2.2.2 (by decide) "P001" (by decide) 1 rfl rfl

/-! ## C7 supporting lemmas -/

theorem request_from_attempts_le :
    ∀ (k r : ℕ) (b : ℚ) (o : ℕ → AttemptOutcome) (a : ℕ), r - a ≤ k →
      (request_from r b o a).attempts ≤ r - a + 1 := by
  intro k
  induction k with
  | zero =>
    intro r b o a h
    have ha : ¬ a < r := by omega
    rw [request_from]
    cases ho : o a with
    | response status =>
      simp only [ho]
      split_ifs with h1 h2
      · exact absurd h2.1 ha
      · show (1 : ℕ) ≤ r - a + 1
        omega
      · show (1 : ℕ) ≤ r - a + 1
        omega
    | transport_error =>
      simp only [ho]
      rw [dif_neg ha]
      show (1 : ℕ) ≤ r - a + 1
      omega
  | succ k ih =>
    intro r b o a h
    rw [request_from]
    cases ho : o a with
    | response status =>
      simp only [ho]
      split_ifs with h1 h2
      · have hrec := ih r b o (a + 1) (by omega)
        show (request_from r b o (a + 1)).attempts + 1 ≤ r - a + 1
        omega
      · show (1 : ℕ) ≤ r - a + 1
        omega
      · show (1 : ℕ) ≤ r - a + 1
        omega
    | transport_error =>
      simp only [ho]
      by_cases h1 : a < r
      · rw [dif_pos h1]
        have hrec := ih r b o (a + 1) (by omega)
        show (request_from r b o (a + 1)).attempts + 1 ≤ r - a + 1
        omega
      · rw [dif_neg h1]
        show (1 : ℕ) ≤ r - a + 1
        omega

/-- Counterexample to C7: status 501 is a server-side error (5xx), and
with retry budget remaining (`retries = 2`) the client still raises it
immediately — one attempt, no backoff sleep — because `RETRY_STATUSES`
is the finite set {429, 500, 502, 503, 504}, not all of 5xx. -/
theorem http_retry_claim_counterexample :
    500 ≤ 501 ∧ 501 ≤ 599 ∧ 0 < 2 ∧
    (request 2 (1/2) (fun _ => AttemptOutcome.response 501)).attempts = 1 ∧
    (request 2 (1/2) (fun _ => AttemptOutcome.response 501)).sleeps = [] ∧
    (request 2 (1/2) (fun _ => AttemptOutcome.response 501)).result =
      Except.error (RequestError.status_error 501) := by
  have h : request 2 (1/2) (fun _ => AttemptOutcome.response 501) =
      { result := Except.error (RequestError.status_error 501), attempts := 1, sleeps := [] } := by
    unfold request
    rw [request_from]
    norm_num [RETRY_STATUSES]
  refine ⟨by norm_num, by norm_num, by norm_num, ?_, ?_, ?_⟩ <;> rw [h]

/-- C7 amended: a 4xx/5xx status is retried — sleeping
`backoff * 2 ^ attempt` before the next try — exactly when it lies in
`RETRY_STATUSES = {429, 500, 502, 503, 504}` and attempts remain; any
other 4xx/5xx status (501 included) raises immediately without a retry;
a transport/timeout error is retried exactly while attempts remain; and
a run makes at most `retries` extra attempts (`retries + 1` in total). -/
theorem http_retry_policy (retries : ℕ) (backoff : ℚ) (outcomes : ℕ → AttemptOutcome)
    (attempt status : ℕ) :
    (outcomes attempt = .response status → 400 ≤ status → status ≤ 599 →
      status ∈ RETRY_STATUSES → attempt < retries →
      request_from retries backoff outcomes attempt =
        { result := (request_from retries backoff outcomes (attempt + 1)).result,
          attempts := (request_from retries backoff outcomes (attempt + 1)).attempts + 1,
          sleeps := backoff * 2 ^ attempt ::
            (request_from retries backoff outcomes (attempt + 1)).sleeps }) ∧
    (outcomes attempt = .response status → 400 ≤ status → status ≤ 599 →
      status ∉ RETRY_STATUSES →
      request_from retries backoff outcomes attempt =
        { result := .error (.status_error status), attempts := 1, sleeps := [] }) ∧
    (outcomes attempt = .response status → 400 ≤ status → status ≤ 599 →
      ¬ attempt < retries →
      request_from retries backoff outcomes attempt =
        { result := .error (.status_error status), attempts := 1, sleeps := [] }) ∧
    (outcomes attempt = .transport_error → attempt < retries →
      request_from retries backoff outcomes attempt =
        { result := (request_from retries backoff outcomes (attempt + 1)).result,
          attempts := (request_from retries backoff outcomes (attempt + 1)).attempts + 1,
          sleeps := backoff * 2 ^ attempt ::
            (request_from retries backoff outcomes (attempt + 1)).sleeps }) ∧
    (outcomes attempt = .transport_error → ¬ attempt < retries →
      request_from retries backoff outcomes attempt =
        { result := .error .transport_error, attempts := 1, sleeps := [] }) ∧
    (request retries backoff outcomes).attempts ≤ retries + 1 := by
  refine ⟨?_, ?_, ?_, ?_, ?_, ?_⟩
  · intro ho h4 h5 hmem hlt
    rw [request_from]
    simp only [ho]
    rw [if_pos ⟨h4, h5⟩, dif_pos ⟨hlt, hmem⟩]
  · intro ho h4 h5 hmem
    rw [request_from]
    simp only [ho]
    rw [if_pos ⟨h4, h5⟩, dif_neg (fun hc => hmem hc.2)]
  · intro ho h4 h5 hlt
    rw [request_from]
    simp only [ho]
    rw [if_pos ⟨h4, h5⟩, dif_neg (fun hc => hlt hc.1)]
  · intro ho hlt
    rw [request_from]
    simp only [ho]
    rw [dif_pos hlt]
  · intro ho hlt
    rw [request_from]
    simp only [ho]
    rw [dif_neg hlt]
  · have h := request_from_attempts_le retries retries backoff outcomes 0 (by omega)
    simpa [request] using h

/-- Witness for C7's amended policy at concrete inputs: 429 with budget
is retried with sleep `1 * 2 ^ 0`; 501 raises at once; 429 with the
budget exhausted raises; a transport error with budget is retried; a
transport error without budget raises; and a constant-429 run with
`retries = 2` makes 3 attempts, within the bound. -/
theorem http_retry_policy_witness :
    (request_from 2 1 (fun _ => AttemptOutcome.response 429) 0 =
      { result := (request_from 2 1 (fun _ => AttemptOutcome.response 429) 1).result,
        attempts := (request_from 2 1 (fun _ => AttemptOutcome.response 429) 1).attempts + 1,
        sleeps := 1 * 2 ^ 0 ::
          (request_from 2 1 (fun _ => AttemptOutcome.response 429) 1).sleeps }) ∧
    (request_from 2 1 (fun _ => AttemptOutcome.response 501) 0 =
      { result := .error (.status_error 501), attempts := 1, sleeps := [] }) ∧
    (request_from 2 1 (fun _ => AttemptOutcome.response 429) 5 =
      { result := .error (.status_error 429), attempts := 1, sleeps := [] }) ∧
    (request_from 2 1 (fun _ => AttemptOutcome.transport_error) 0 =
      { result := (request_from 2 1 (fun _ => AttemptOutcome.transport_error) 1).result,
        attempts := (request_from 2 1 (fun _ => AttemptOutcome.transport_error) 1).attempts + 1,
        sleeps := 1 * 2 ^ 0 ::
          (request_from 2 1 (fun _ => AttemptOutcome.transport_error) 1).sleeps }) ∧
    (request_from 2 1 (fun _ => AttemptOutcome.transport_error) 5 =
      { result := .error .transport_error, attempts := 1, sleeps := [] }) ∧
    (request 2 1 (fun _ => AttemptOutcome.response 429)).attempts ≤ 2 + 1 := by
  refine ⟨?_, ?_, ?_, ?_, ?_, ?_⟩
  · exact (http_retry_policy 2 1 (fun _ => AttemptOutcome.response 429) 0 429).1
      rfl (by norm_num) (by norm_num) (by decide) (by norm_num)
  · exact (http_retry_policy 2 1 (fun _ => AttemptOutcome.response 501) 0 501).2.1
      rfl (by norm_num) (by norm_num) (by decide)
  · exact (http_retry_policy 2 1 (fun _ => AttemptOutcome.response 429) 5 429).2.2.1
      rfl (by norm_num) (by norm_num) (by norm_num)
  · exact (http_retry_policy 2 1 (fun _ => AttemptOutcome.transport_error) 0 429).2.2.2.1
      rfl (by norm_num)
  · exact (http_retry_policy 2 1 (fun _ => AttemptOutcome.transport_error) 5 429).2.2.2.2.1
      rfl (by norm_num)
  · exact (http_retry_policy 2 1 (fun _ => AttemptOutcome.response 429) 0 429).2.2.2.2.2

end Orderflow
